import Mathlib

/-!
# Decentralized File System client (`Frontend/src/App.jsx`)

A shallow embedding of the ledger-facing handlers of the `App` component:
`loadMyFiles`, `loadAccessList`, `addFile`, `setAccess`, `viewOtherUserFiles`,
the `accountsChanged` listener and the `[account]` effect.

* The React state of the component is the record `AppState`.
* The contract behind `readContract` / `writeContract` is a parameter
  (`Ledger σ`): every answer the contract can give is covered by quantifying
  over it.
* A handler run to completion is a function to a `Run`: the state, the ledger
  after the run, the observable effects in order, and how the promise of the
  handler settled.
* Interleavings of in-flight queries are the step function `step` on `Client`
  (state plus the list of suspended handlers).
* Interleavings of the grants workflow, transactions included, are the step
  function `grantStep` on `GrantClient` (state, ledger state and the calls in
  flight).
-/

namespace App

/-! ## Data model -/

/-- Ways a ledger call can fail: the contract reverts a query (no grant), the
signer or contract rejects a transaction, or the transport fails. -/
inductive LedgerError where
  | accessDenied
  | rejected
  | unreachable
  deriving DecidableEq, Repr

/-- One element of the array returned by `shareAccess`, rendered at
`App.jsx:252-256` through its fields `user` and `access`. -/
structure Access where
  user : String
  access : Bool
  deriving DecidableEq, Repr

/-- The `useState` cells of `App` (`App.jsx:16-28`). `file` keeps the name of
the selected file, `none` for `null`. -/
structure AppState where
  account : String
  file : Option String
  uploading : Bool
  url : String
  files : List String
  shareTo : String
  accessList : List Access
  viewAddress : String
  otherFiles : List String
  deriving DecidableEq, Repr

/-- The initial values given to `useState` (`App.jsx:16-28`). -/
def AppState.initial : AppState :=
  { account := "", file := none, uploading := false, url := "", files := [],
    shareTo := "", accessList := [], viewAddress := "", otherFiles := [] }

/-- The contract as the client sees it through `publicClient.readContract` and
`walletClient().writeContract`, over a ledger state `σ`. The first `String` of
every operation is the `account` option of the call (the sender); the others
are `args` in order. A failed call answers `.error` and leaves the ledger as it
was. The ABI (`./abi`) is not part of the model: only the five function names
the component uses appear. -/
structure Ledger (σ : Type) where
  display : σ → String → String → Except LedgerError (List String)
  shareAccess : σ → String → Except LedgerError (List Access)
  add : σ → String → String → String → Except LedgerError σ
  allow : σ → String → String → Except LedgerError σ
  disallow : σ → String → String → Except LedgerError σ

/-- The argument of `setAccess`: the two buttons pass the literals `"allow"`
and `"disallow"` (`App.jsx:241-242`). -/
inductive Mode where
  | allow
  | disallow
  deriving DecidableEq, Repr

/-- The string a `Mode` stands for; it is used as `functionName`
(`App.jsx:131`). -/
def Mode.functionName : Mode → String
  | .allow => "allow"
  | .disallow => "disallow"

/-- Observable actions of a handler, in program order. -/
inductive Effect where
  | alert (msg : String)
  | consoleLog (e : LedgerError)
  | readContract (functionName : String) (args : List String) (account : String)
  | writeContract (functionName : String) (args : List String) (account : String)
  | unhandledRejection (e : LedgerError)
  deriving DecidableEq, Repr

/-- Whether an effect is a ledger query. -/
def Effect.isRead : Effect → Bool
  | .readContract _ _ _ => true
  | _ => false

/-- Whether an effect is a ledger transaction. -/
def Effect.isWrite : Effect → Bool
  | .writeContract _ _ _ => true
  | _ => false

/-- Whether an effect reaches the ledger at all. -/
def Effect.isLedgerCall (e : Effect) : Bool :=
  e.isRead || e.isWrite

/-- A handler run to completion: the component state, the ledger, the effects
in order, and the settlement of the promise the handler returned (`.error e`
is a rejection with `e`). -/
structure Run (σ : Type) where
  state : AppState
  world : σ
  trace : List Effect
  result : Except LedgerError Unit

/-- The effect of calling an async function without awaiting it or attaching a
handler: a rejection is reported as unhandled and goes nowhere else. -/
def floating : Except LedgerError Unit → List Effect
  | .ok _ => []
  | .error e => [.unhandledRejection e]

/-! ## Handlers, run to completion -/

variable {σ : Type}

/-- `loadMyFiles` (`App.jsx:42-54`). -/
def loadMyFiles (L : Ledger σ) (w : σ) (s : AppState) : Run σ :=
  if s.account = "" then ⟨s, w, [], .ok ()⟩
  else
    match L.display w s.account s.account with
    | .ok data =>
      ⟨{ s with files := data }, w,
        [.readContract "display" [s.account] s.account], .ok ()⟩
    | .error e =>
      ⟨s, w, [.readContract "display" [s.account] s.account], .error e⟩

/-- `loadAccessList` (`App.jsx:56-68`). -/
def loadAccessList (L : Ledger σ) (w : σ) (s : AppState) : Run σ :=
  if s.account = "" then ⟨s, w, [], .ok ()⟩
  else
    match L.shareAccess w s.account with
    | .ok data =>
      ⟨{ s with accessList := data }, w,
        [.readContract "shareAccess" [] s.account], .ok ()⟩
    | .error e =>
      ⟨s, w, [.readContract "shareAccess" [] s.account], .error e⟩

/-- `addFile` (`App.jsx:106-122`). The final `loadMyFiles()` is not awaited. -/
def addFile (L : Ledger σ) (w : σ) (s : AppState) : Run σ :=
  if s.account = "" then ⟨s, w, [.alert "Connect wallet first"], .ok ()⟩
  else if s.url = "" then
    ⟨s, w, [.alert "Upload file or paste URL first"], .ok ()⟩
  else
    match L.add w s.account s.account s.url with
    | .error e =>
      ⟨s, w, [.writeContract "add" [s.account, s.url] s.account], .error e⟩
    | .ok w1 =>
      let r := loadMyFiles L w1 { s with url := "", file := none }
      ⟨r.state, r.world,
        [.writeContract "add" [s.account, s.url] s.account,
          .alert "✅ Saved to blockchain"] ++ r.trace ++ floating r.result,
        .ok ()⟩

/-- The transaction `setAccess` sends: `functionName: mode` (`App.jsx:131`). -/
def Ledger.setAccess (L : Ledger σ) : Mode → σ → String → String → Except LedgerError σ
  | .allow => L.allow
  | .disallow => L.disallow

/-- `setAccess` (`App.jsx:124-139`). The final `loadAccessList()` is not
awaited. -/
def setAccess (L : Ledger σ) (w : σ) (s : AppState) (mode : Mode) : Run σ :=
  if s.account = "" then ⟨s, w, [.alert "Connect wallet first"], .ok ()⟩
  else if s.shareTo = "" then ⟨s, w, [.alert "Enter user address"], .ok ()⟩
  else
    match L.setAccess mode w s.account s.shareTo with
    | .error e =>
      ⟨s, w, [.writeContract mode.functionName [s.shareTo] s.account], .error e⟩
    | .ok w1 =>
      let r := loadAccessList L w1 { s with shareTo := "" }
      ⟨r.state, r.world,
        [.writeContract mode.functionName [s.shareTo] s.account,
          .alert (if mode = .allow then "✅ Access allowed" else "✅ Access removed")]
          ++ r.trace ++ floating r.result,
        .ok ()⟩

/-- `viewOtherUserFiles` (`App.jsx:141-159`). -/
def viewOtherUserFiles (L : Ledger σ) (w : σ) (s : AppState) : Run σ :=
  if s.account = "" then ⟨s, w, [.alert "Connect wallet first"], .ok ()⟩
  else if s.viewAddress = "" then ⟨s, w, [.alert "Enter user address"], .ok ()⟩
  else
    match L.display w s.account s.viewAddress with
    | .ok data =>
      ⟨{ s with otherFiles := data }, w,
        [.readContract "display" [s.viewAddress] s.account], .ok ()⟩
    | .error e =>
      ⟨s, w,
        [.readContract "display" [s.viewAddress] s.account, .consoleLog e,
          .alert "❌ No access / No files"],
        .ok ()⟩

/-- The value `accs?.[0] || ""` (`App.jsx:164`); `none` is an absent `accs`. -/
def firstAccount : Option (List String) → String
  | none => ""
  | some accs => accs.head?.getD ""

/-- The listener `onAccountsChanged` (`App.jsx:164`). -/
def onAccountsChanged (s : AppState) (accs : Option (List String)) : AppState :=
  { s with account := firstAccount accs }

/-- The body of the effect with dependency `[account]` (`App.jsx:171-176`):
both refreshes are started, neither is awaited. -/
def accountEffect (L : Ledger σ) (w : σ) (s : AppState) : Run σ :=
  if s.account = "" then ⟨s, w, [], .ok ()⟩
  else
    let r1 := loadMyFiles L w s
    let r2 := loadAccessList L r1.world r1.state
    ⟨r2.state, r2.world,
      r1.trace ++ r2.trace ++ floating r1.result ++ floating r2.result, .ok ()⟩

/-- An `accountsChanged` notification, run to completion: the listener sets
`account`, and the `[account]` effect runs when the value differs from the one
of the previous render. -/
def accountsChanged (L : Ledger σ) (w : σ) (s : AppState)
    (accs : Option (List String)) : Run σ :=
  let s1 := onAccountsChanged s accs
  if s1.account = s.account then ⟨s1, w, [], .ok ()⟩
  else accountEffect L w s1

/-- The `onChange` of the share input (`App.jsx:238`). -/
def setShareTo (s : AppState) (v : String) : AppState :=
  { s with shareTo := v }

/-- The `onChange` of the view input (`App.jsx:265`). -/
def setViewAddress (s : AppState) (v : String) : AppState :=
  { s with viewAddress := v }

/-! ## In-flight queries

Every `await` of a query suspends its handler; the response is delivered by a
later event. A suspended handler keeps the values its closure captured when it
was called. Nothing in the component cancels or tags a suspended handler. -/

/-- A handler suspended at the `await` of its query, with the state values its
closure captured (`account`, and `viewAddress` for the viewer). -/
inductive Pending where
  | loadMyFiles (account : String)
  | loadAccessList (account : String)
  | viewOtherUserFiles (account : String) (viewAddress : String)
  deriving DecidableEq, Repr

/-- The component between two events: its state and the suspended handlers, in
the order their queries were issued. -/
structure Client where
  app : AppState
  pending : List Pending
  deriving DecidableEq, Repr

/-- The component after mounting: initial state, nothing in flight. -/
def Client.initial : Client :=
  ⟨AppState.initial, []⟩

/-- What can happen to the mounted component: a wallet notification, a click
on `Refresh` (`App.jsx:219`), on `Refresh Access List` (`App.jsx:248`) or on
`View` (`App.jsx:268`), typing in the view input (`App.jsx:265`), and the
response to the `i`-th in-flight query arriving. -/
inductive Event where
  | accountsChanged (accs : Option (List String))
  | refreshClicked
  | refreshAccessListClicked
  | viewAddressTyped (v : String)
  | viewClicked
  | settled (i : Nat)
  deriving DecidableEq, Repr

/-- The part of a handler after its `await`, run on the state current at the
time the response arrives: `setFiles(data)` (`App.jsx:53`),
`setAccessList(data)` (`App.jsx:67`), `setOtherFiles(data)` (`App.jsx:154`); a
failed query writes nothing (`App.jsx:155-158` for the viewer, a rejected
promise for the two refreshes). -/
def resume (L : Ledger σ) (w : σ) (s : AppState) : Pending → AppState
  | .loadMyFiles account =>
    match L.display w account account with
    | .ok data => { s with files := data }
    | .error _ => s
  | .loadAccessList account =>
    match L.shareAccess w account with
    | .ok data => { s with accessList := data }
    | .error _ => s
  | .viewOtherUserFiles account viewAddress =>
    match L.display w account viewAddress with
    | .ok data => { s with otherFiles := data }
    | .error _ => s

/-- One event. A notification or a click runs the part of its handler before
the `await`: the guards, then the query is issued and the handler is
suspended; `settled i` delivers the response to the `i`-th suspended handler
and runs the rest of it. The ledger state `w` is fixed: no event of this model
sends a transaction. -/
def step (L : Ledger σ) (w : σ) (c : Client) : Event → Client
  | .accountsChanged accs =>
    let s1 := onAccountsChanged c.app accs
    if s1.account = c.app.account then ⟨s1, c.pending⟩
    else if s1.account = "" then ⟨s1, c.pending⟩
    else ⟨s1, c.pending ++ [.loadMyFiles s1.account, .loadAccessList s1.account]⟩
  | .refreshClicked =>
    if c.app.account = "" then c
    else ⟨c.app, c.pending ++ [.loadMyFiles c.app.account]⟩
  | .refreshAccessListClicked =>
    if c.app.account = "" then c
    else ⟨c.app, c.pending ++ [.loadAccessList c.app.account]⟩
  | .viewAddressTyped v => ⟨setViewAddress c.app v, c.pending⟩
  | .viewClicked =>
    if c.app.account = "" then c
    else if c.app.viewAddress = "" then c
    else ⟨c.app, c.pending ++ [.viewOtherUserFiles c.app.account c.app.viewAddress]⟩
  | .settled i =>
    match c.pending[i]? with
    | none => c
    | some p => ⟨resume L w c.app p, c.pending.eraseIdx i⟩

/-- The component after a sequence of events. -/
def run (L : Ledger σ) (w : σ) (c : Client) (events : List Event) : Client :=
  events.foldl (step L w) c

/-- The identities an event list makes active, in order. -/
def activated : List Event → List String
  | [] => []
  | .accountsChanged accs :: es => firstAccount accs :: activated es
  | _ :: es => activated es

/-- The property of `files` that every event preserves, relative to the list
`seen` of identities made active so far: the active identity is empty or was
made active; every suspended `loadMyFiles` captured a non-empty identity that
was made active; `files` is empty or is the answer to `display(X)` asked by
`X`, for a non-empty `X` that was made active. -/
def FilesInv (L : Ledger σ) (w : σ) (seen : List String) (c : Client) : Prop :=
  (c.app.account = "" ∨ c.app.account ∈ seen) ∧
  (∀ a, Pending.loadMyFiles a ∈ c.pending → a ≠ "" ∧ a ∈ seen) ∧
  (c.app.files = [] ∨ ∃ X ∈ seen, X ≠ "" ∧ L.display w X X = .ok c.app.files)

/-! ## Transactions and refreshes in flight

The grants workflow with its ledger calls in flight. Every call has two
moments: the ledger processes it (a transaction changes the ledger state, a
query is answered from the ledger state of that moment), and later the
response reaches the component and the rest of the handler runs. Other events
can fall between the two. -/

/-- A ledger call of the grants workflow in flight, with the values the
closure of its handler captured: the transaction of `setAccess`
(`App.jsx:128-134`) before and after the ledger processed it, and the query of
`loadAccessList` (`App.jsx:59-65`) before and after the ledger answered it. -/
inductive Flight where
  | setAccess (mode : Mode) (account : String) (shareTo : String)
  | setAccessAnswered (outcome : Except LedgerError Unit) (account : String)
  | loadAccessList (account : String)
  | loadAccessListAnswered (answer : Except LedgerError (List Access))

/-- Whether the call is a transaction the ledger has not processed yet. -/
def Flight.isOpenTransaction : Flight → Bool
  | .setAccess _ _ _ => true
  | _ => false

/-- The component, the ledger state and the calls in flight, in the order they
were issued. -/
structure GrantClient (σ : Type) where
  app : AppState
  world : σ
  inFlight : List Flight

/-- What can happen in the grants workflow: typing in the share input
(`App.jsx:238`), a click on `Allow` or `Disallow` (`App.jsx:241-242`), a click
on `Refresh Access List` (`App.jsx:248`), the ledger processing the `i`-th call
in flight, and the response to the `i`-th call in flight reaching the
component. -/
inductive GrantEvent where
  | shareToTyped (v : String)
  | setAccessClicked (mode : Mode)
  | refreshAccessListClicked
  | answered (i : Nat)
  | settled (i : Nat)

/-- Whether the event is the ledger processing a call or a response arriving,
as opposed to an action of the user. -/
def GrantEvent.isResponse : GrantEvent → Bool
  | .answered _ => true
  | .settled _ => true
  | _ => false

/-- The ledger processes a call: a transaction is applied to the ledger state
(or refused, leaving it as it was), a query is answered from the ledger state
of this moment. A call already processed is left alone. -/
def process (L : Ledger σ) (w : σ) : Flight → σ × Flight
  | .setAccess mode account shareTo =>
    match L.setAccess mode w account shareTo with
    | .ok w1 => (w1, .setAccessAnswered (.ok ()) account)
    | .error e => (w, .setAccessAnswered (.error e) account)
  | .loadAccessList account =>
    (w, .loadAccessListAnswered (L.shareAccess w account))
  | f => (w, f)

/-- The response reaches the component and the rest of the handler runs on the
state of that moment; the result is the new state and the calls the handler
issues. After an accepted transaction: `setShareTo("")` and the un-awaited
`loadAccessList()` with its guard (`App.jsx:136-138`, `App.jsx:57`); after a
refused one the handler is left at the `await`. After an answered query:
`setAccessList(data)` (`App.jsx:67`), nothing if the query failed. A call the
ledger has not processed has no response yet (`none`). -/
def deliver (s : AppState) : Flight → Option (AppState × List Flight)
  | .setAccessAnswered (.ok _) account =>
    some ({ s with shareTo := "" },
      if account = "" then [] else [.loadAccessList account])
  | .setAccessAnswered (.error _) _ => some (s, [])
  | .loadAccessListAnswered (.ok data) => some ({ s with accessList := data }, [])
  | .loadAccessListAnswered (.error _) => some (s, [])
  | .setAccess _ _ _ => none
  | .loadAccessList _ => none

/-- One event of the grants workflow. A click runs the guards of its handler
(`App.jsx:125-126`, `App.jsx:57`) and issues the call with the values of the
current render. -/
def grantStep (L : Ledger σ) (c : GrantClient σ) : GrantEvent → GrantClient σ
  | .shareToTyped v => ⟨setShareTo c.app v, c.world, c.inFlight⟩
  | .setAccessClicked mode =>
    if c.app.account = "" then c
    else if c.app.shareTo = "" then c
    else ⟨c.app, c.world, c.inFlight ++ [.setAccess mode c.app.account c.app.shareTo]⟩
  | .refreshAccessListClicked =>
    if c.app.account = "" then c
    else ⟨c.app, c.world, c.inFlight ++ [.loadAccessList c.app.account]⟩
  | .answered i =>
    match c.inFlight[i]? with
    | none => c
    | some f => ⟨c.app, (process L c.world f).1, c.inFlight.set i (process L c.world f).2⟩
  | .settled i =>
    match c.inFlight[i]? with
    | none => c
    | some f =>
      match deliver c.app f with
      | none => c
      | some (s1, issued) => ⟨s1, c.world, c.inFlight.eraseIdx i ++ issued⟩

/-- The grants workflow after a sequence of events. -/
def grantRun (L : Ledger σ) (c : GrantClient σ) (events : List GrantEvent) :
    GrantClient σ :=
  events.foldl (grantStep L) c

/-- One `setAccess` call on grantee `g` issued behind `n` calls in flight: the
grantee is typed, the button of the mode is clicked, the ledger processes the
transaction and its response reaches the component. The refresh the handler
then issues is left in flight. -/
def callEvents (g : String) (mode : Mode) (n : Nat) : List GrantEvent :=
  [.shareToTyped g, .setAccessClicked mode, .answered n, .settled n]

/-! ## Reference ledger -/

/-- Modelled from the spec: the contract is not among the sources. The ledger
state holds, per owner, the registered urls in insertion order and the grants
the owner gave (§3, §4.1). -/
structure RefWorld where
  files : String → List String
  grants : String → List Access

/-- Modelled from the spec: setting the grant of `user` to `flag` in an owner's
grant list, keeping at most one entry per grantee (§3). -/
def setGrant (l : List Access) (user : String) (flag : Bool) : List Access :=
  if l.any (fun a => a.user = user) then
    l.map (fun a => if a.user = user then { a with access := flag } else a)
  else l ++ [⟨user, flag⟩]

/-- Modelled from the spec: whether `sender` may list the files of `owner`
(§4.1: the owner itself, or a holder of a grant that is set). -/
def RefWorld.mayRead (w : RefWorld) (sender owner : String) : Bool :=
  sender = owner || (w.grants owner).any (fun a => a.user = sender && a.access)

/-- Modelled from the spec: the four ledger operations of §4.1 with every
transaction accepted; `allow` / `disallow` set the sender's grant for the user
to true / false and `shareAccess` returns the sender's grants. -/
def refLedger : Ledger RefWorld where
  display w sender owner :=
    if w.mayRead sender owner then .ok (w.files owner) else .error .accessDenied
  shareAccess w sender := .ok (w.grants sender)
  add w _ owner url :=
    .ok { w with files := Function.update w.files owner (w.files owner ++ [url]) }
  allow w sender user :=
    .ok { w with grants := Function.update w.grants sender (setGrant (w.grants sender) user true) }
  disallow w sender user :=
    .ok { w with grants := Function.update w.grants sender (setGrant (w.grants sender) user false) }

/-- Two `accountsChanged` notifications in a row, each run to completion: the
active identity becomes `A`, then `B`. -/
def switchAB (L : Ledger σ) (w : σ) (s : AppState) (A B : String) : Run σ :=
  accountsChanged L (accountsChanged L w s (some [A])).world
    (accountsChanged L w s (some [A])).state (some [B])

/-! ## Concrete inputs -/

/-- A ledger state with five identities: `0xA` has one file and granted
nobody; `0xB` and `0xE` have one file each and granted `0xA`; `0xC` has one
file and granted nobody; `0xD` has no file and granted `0xA`. -/
def demoWorld : RefWorld where
  files owner :=
    if owner = "0xA" then ["https://host/a1"]
    else if owner = "0xB" then ["https://host/b1"]
    else if owner = "0xC" then ["https://host/c1"]
    else if owner = "0xE" then ["https://host/e1"]
    else []
  grants owner :=
    if owner = "0xB" then [⟨"0xA", true⟩]
    else if owner = "0xD" then [⟨"0xA", true⟩]
    else if owner = "0xE" then [⟨"0xA", true⟩]
    else []

/-- A ledger that declines every transaction and answers every query with an
empty sequence. -/
def decliningLedger : Ledger Unit where
  display _ _ _ := .ok []
  shareAccess _ _ := .ok []
  add _ _ _ _ := .error .rejected
  allow _ _ _ := .error .rejected
  disallow _ _ _ := .error .rejected

/-- The initial state with identity `0xA` connected. -/
def connectedA : AppState :=
  { AppState.initial with account := "0xA" }

/-- The state `connectedA` with `0xC` typed in the view input while the list
below it still shows a listing fetched earlier. -/
def staleView : AppState :=
  { connectedA with viewAddress := "0xC", otherFiles := ["https://host/b1"] }

/-- The state `connectedA` with `0xD` typed in the view input and no query
made yet. -/
def unqueriedD : AppState :=
  { connectedA with viewAddress := "0xD" }

/-- The ledger state `demoWorld` after `0xD` has withdrawn its grant to
`0xA`. -/
def revokedWorld : RefWorld :=
  { demoWorld with grants := Function.update demoWorld.grants "0xD" [⟨"0xA", false⟩] }

/-- The state `connectedA` with `0xB` typed in the share input. -/
def sharingB : AppState :=
  { connectedA with shareTo := "0xB" }

/-- A ledger out of reach: every call fails in the transport. -/
def unreachableLedger : Ledger Unit where
  display _ _ _ := .error .unreachable
  shareAccess _ _ := .error .unreachable
  add _ _ _ _ := .error .unreachable
  allow _ _ _ := .error .unreachable
  disallow _ _ _ := .error .unreachable

/-- The reference ledger during an outage that hits the queries sent by `0xB`:
they fail in the transport, everything else is answered as usual. -/
def outageForB : Ledger RefWorld :=
  { refLedger with
    display := fun w sender owner =>
      if sender = "0xB" then .error .unreachable else refLedger.display w sender owner
    shareAccess := fun w sender =>
      if sender = "0xB" then .error .unreachable else refLedger.shareAccess w sender }

/-- The component with `0xA` connected and nothing in flight. -/
def clientA : Client :=
  ⟨connectedA, []⟩


/-- The component with `0xA` connected on `demoWorld`, nothing in flight. -/
def grantsA : GrantClient RefWorld :=
  ⟨connectedA, demoWorld, []⟩

/-! # Theorems -/

/-! ## Failure of the cross-identity query -/

/-- C1 (as stated, refuted): with `0xA` active, `0xC` as target and a listing
still shown from an earlier view, the ledger denies `display(0xC)` and
`viewOtherUserFiles` leaves `otherFiles` non-empty. -/
theorem C1_otherFiles_not_cleared_on_denial :
    staleView.account ≠ "" ∧ staleView.viewAddress ≠ "" ∧
    refLedger.display demoWorld staleView.account staleView.viewAddress
      = .error .accessDenied ∧
    (viewOtherUserFiles refLedger demoWorld staleView).state.otherFiles
      = ["https://host/b1"] ∧
    (viewOtherUserFiles refLedger demoWorld staleView).state.otherFiles ≠ [] :=
  ⟨by decide, by decide, rfl, by decide, by decide⟩

/-- C1 (amended): when the active identity and the target are non-empty and
`display(target)` fails, `viewOtherUserFiles` leaves the whole state, the slot
`otherFiles` included, as it was before the call; it logs the error and raises
the alert, and its promise resolves. -/
theorem C1_failed_view_keeps_state (L : Ledger σ) (w : σ) (s : AppState)
    (e : LedgerError) (hacc : s.account ≠ "") (hview : s.viewAddress ≠ "")
    (hfail : L.display w s.account s.viewAddress = .error e) :
    (viewOtherUserFiles L w s).state = s ∧
    (viewOtherUserFiles L w s).state.otherFiles = s.otherFiles ∧
    (viewOtherUserFiles L w s).trace
      = [.readContract "display" [s.viewAddress] s.account, .consoleLog e,
          .alert "❌ No access / No files"] ∧
    (viewOtherUserFiles L w s).result = .ok () := by
  simp [viewOtherUserFiles, hacc, hview, hfail]

/-- Witness at `staleView` on `demoWorld`. -/
theorem C1_failed_view_keeps_state_witness :
    (viewOtherUserFiles refLedger demoWorld staleView).state = staleView ∧
    (viewOtherUserFiles refLedger demoWorld staleView).state.otherFiles
      = staleView.otherFiles ∧
    (viewOtherUserFiles refLedger demoWorld staleView).trace
      = [.readContract "display" [staleView.viewAddress] staleView.account,
          .consoleLog .accessDenied, .alert "❌ No access / No files"] ∧
    (viewOtherUserFiles refLedger demoWorld staleView).result = .ok () :=
  C1_failed_view_keeps_state refLedger demoWorld staleView .accessDenied
    (by decide) (by decide) rfl

/-! ## Switching the active identity -/

/-- C2 (as stated, refuted): from the initial state on `demoWorld`, switching
to `0xA`, then to `0xB`, then to no account ends with `files` and `accessList`
still holding the listing and the grants of `0xB`. -/
theorem C2_slots_survive_logout :
    (accountsChanged refLedger
      (switchAB refLedger demoWorld AppState.initial "0xA" "0xB").world
      (switchAB refLedger demoWorld AppState.initial "0xA" "0xB").state
      (some [])).state
      = { AppState.initial with
            files := ["https://host/b1"], accessList := [⟨"0xA", true⟩] } ∧
    (accountsChanged refLedger
      (switchAB refLedger demoWorld AppState.initial "0xA" "0xB").world
      (switchAB refLedger demoWorld AppState.initial "0xA" "0xB").state
      (some [])).state.files ≠ [] ∧
    (accountsChanged refLedger
      (switchAB refLedger demoWorld AppState.initial "0xA" "0xB").world
      (switchAB refLedger demoWorld AppState.initial "0xA" "0xB").state
      (some [])).state.accessList ≠ [] := by
  decide

/-- C2 (amended): for all identities `A`, `B`, every ledger and every starting
state, after switching to `A`, then to `B`, then to no account, the active
identity is empty, the last notification issued no query, and `files` and
`accessList` (and every other slot) are exactly what they were after the
switch to `B`. -/
theorem C2_logout_keeps_slots (L : Ledger σ) (w : σ) (s : AppState) (A B : String) :
    (accountsChanged L (switchAB L w s A B).world (switchAB L w s A B).state
      (some [])).state
      = { (switchAB L w s A B).state with account := "" } ∧
    (accountsChanged L (switchAB L w s A B).world (switchAB L w s A B).state
      (some [])).state.files = (switchAB L w s A B).state.files ∧
    (accountsChanged L (switchAB L w s A B).world (switchAB L w s A B).state
      (some [])).state.accessList = (switchAB L w s A B).state.accessList ∧
    (accountsChanged L (switchAB L w s A B).world (switchAB L w s A B).state
      (some [])).trace = [] := by
  generalize switchAB L w s A B = rB
  unfold accountsChanged
  by_cases h : rB.state.account = ""
  · simp [onAccountsChanged, firstAccount, h, accountEffect]
  · simp [onAccountsChanged, firstAccount, accountEffect, Ne.symm h]

/-! ## Granting and revoking -/

/-- C3 (as stated, refuted): with `0xA` active and grantee `0xB`, on a ledger
that declines the transaction, `setAccess` sends the transaction and nothing
else: no `shareAccess` query is issued. -/
theorem C3_no_refresh_after_rejection :
    sharingB.account ≠ "" ∧ sharingB.shareTo ≠ "" ∧
    (setAccess decliningLedger () sharingB .allow).trace
      = [.writeContract "allow" ["0xB"] "0xA"] ∧
    Effect.readContract "shareAccess" [] "0xA"
      ∉ (setAccess decliningLedger () sharingB .allow).trace ∧
    (setAccess decliningLedger () sharingB .disallow).trace
      = [.writeContract "disallow" ["0xB"] "0xA"] := by
  decide

/-- C3 (amended): for every non-empty active identity, every non-empty grantee
and both modes, `setAccess` sends the transaction first; when the transaction
is accepted the only further ledger call is the `shareAccess` query of the
refresh, issued after it; when the transaction fails no refresh is issued, the
state is left as it was and the failure is the result of the call. -/
theorem C3_refresh_only_after_success (L : Ledger σ) (w : σ) (s : AppState)
    (mode : Mode) (hacc : s.account ≠ "") (hto : s.shareTo ≠ "") :
    (∀ w1, L.setAccess mode w s.account s.shareTo = .ok w1 →
      (setAccess L w s mode).trace.filter Effect.isLedgerCall
        = [.writeContract mode.functionName [s.shareTo] s.account,
            .readContract "shareAccess" [] s.account]) ∧
    (∀ e, L.setAccess mode w s.account s.shareTo = .error e →
      (setAccess L w s mode).trace
        = [.writeContract mode.functionName [s.shareTo] s.account] ∧
      (setAccess L w s mode).state = s ∧
      (setAccess L w s mode).world = w ∧
      (setAccess L w s mode).result = .error e) := by
  constructor
  · intro w1 hok
    simp only [setAccess, hacc, hto, hok, loadAccessList, if_false]
    cases hq : L.shareAccess w1 s.account <;>
      simp [floating, Effect.isLedgerCall, Effect.isRead, Effect.isWrite, List.filter]
  · intro e herr
    simp [setAccess, hacc, hto, herr]

/-- Witness at `sharingB`: mode `allow` on
the reference ledger (accepted), mode `disallow` on a declining ledger. -/
theorem C3_refresh_only_after_success_witness :
    (setAccess refLedger demoWorld sharingB .allow).trace.filter Effect.isLedgerCall
      = [.writeContract "allow" ["0xB"] "0xA", .readContract "shareAccess" [] "0xA"] ∧
    ((setAccess decliningLedger () sharingB .disallow).trace
        = [.writeContract "disallow" ["0xB"] "0xA"] ∧
      (setAccess decliningLedger () sharingB .disallow).state = sharingB ∧
      (setAccess decliningLedger () sharingB .disallow).world = () ∧
      (setAccess decliningLedger () sharingB .disallow).result = .error .rejected) :=
  ⟨(C3_refresh_only_after_success refLedger demoWorld sharingB .allow
      (by decide) (by decide)).1 _ rfl,
    (C3_refresh_only_after_success decliningLedger () sharingB .disallow
      (by decide) (by decide)).2 _ rfl⟩

/-! ## Guards -/

/-- C4: `addFile`, `setAccess` and `viewOtherUserFiles`, called with an empty
active identity or with an empty required input (`url`, `shareTo`,
`viewAddress`), issue no ledger call, neither transaction nor query, and leave
every state field and the ledger unchanged. -/
theorem C4_guards_stop_before_ledger (L : Ledger σ) (w : σ) (s : AppState)
    (mode : Mode) :
    (s.account = "" ∨ s.url = "" →
      (addFile L w s).state = s ∧ (addFile L w s).world = w ∧
      ∀ e ∈ (addFile L w s).trace, e.isLedgerCall = false) ∧
    (s.account = "" ∨ s.shareTo = "" →
      (setAccess L w s mode).state = s ∧ (setAccess L w s mode).world = w ∧
      ∀ e ∈ (setAccess L w s mode).trace, e.isLedgerCall = false) ∧
    (s.account = "" ∨ s.viewAddress = "" →
      (viewOtherUserFiles L w s).state = s ∧ (viewOtherUserFiles L w s).world = w ∧
      ∀ e ∈ (viewOtherUserFiles L w s).trace, e.isLedgerCall = false) := by
  refine ⟨?_, ?_, ?_⟩
  · intro h
    unfold addFile
    by_cases ha : s.account = ""
    · simp [ha, Effect.isLedgerCall, Effect.isRead, Effect.isWrite]
    · have hu : s.url = "" := h.resolve_left ha
      simp [ha, hu, Effect.isLedgerCall, Effect.isRead, Effect.isWrite]
  · intro h
    unfold setAccess
    by_cases ha : s.account = ""
    · simp [ha, Effect.isLedgerCall, Effect.isRead, Effect.isWrite]
    · have hu : s.shareTo = "" := h.resolve_left ha
      simp [ha, hu, Effect.isLedgerCall, Effect.isRead, Effect.isWrite]
  · intro h
    unfold viewOtherUserFiles
    by_cases ha : s.account = ""
    · simp [ha, Effect.isLedgerCall, Effect.isRead, Effect.isWrite]
    · have hu : s.viewAddress = "" := h.resolve_left ha
      simp [ha, hu, Effect.isLedgerCall, Effect.isRead, Effect.isWrite]

/-- Witness: in the initial state (no active
identity) and in `connectedA` (identity set, all three inputs empty) the three
handlers leave the state alone. -/
theorem C4_guards_stop_before_ledger_witness :
    ((addFile refLedger demoWorld AppState.initial).state = AppState.initial ∧
      (setAccess refLedger demoWorld AppState.initial .allow).state = AppState.initial ∧
      (viewOtherUserFiles refLedger demoWorld AppState.initial).state
        = AppState.initial) ∧
    ((addFile refLedger demoWorld connectedA).state = connectedA ∧
      (setAccess refLedger demoWorld connectedA .disallow).state = connectedA ∧
      (viewOtherUserFiles refLedger demoWorld connectedA).state = connectedA) :=
  ⟨⟨((C4_guards_stop_before_ledger refLedger demoWorld AppState.initial .allow).1
        (Or.inl rfl)).1,
      ((C4_guards_stop_before_ledger refLedger demoWorld AppState.initial .allow).2.1
        (Or.inl rfl)).1,
      ((C4_guards_stop_before_ledger refLedger demoWorld AppState.initial .allow).2.2
        (Or.inl rfl)).1⟩,
    ⟨((C4_guards_stop_before_ledger refLedger demoWorld connectedA .disallow).1
        (Or.inr rfl)).1,
      ((C4_guards_stop_before_ledger refLedger demoWorld connectedA .disallow).2.1
        (Or.inr rfl)).1,
      ((C4_guards_stop_before_ledger refLedger demoWorld connectedA .disallow).2.2
        (Or.inr rfl)).1⟩⟩

/-! ## The viewer and the caller-scoped slots -/

/-- C5: whatever the state, the target and the answer of the ledger (a
sequence of urls or any failure), `viewOtherUserFiles` leaves `files`,
`accessList` and `account` as they were before the call. -/
theorem C5_view_frames_own_slots (L : Ledger σ) (w : σ) (s : AppState) :
    (viewOtherUserFiles L w s).state.files = s.files ∧
    (viewOtherUserFiles L w s).state.accessList = s.accessList ∧
    (viewOtherUserFiles L w s).state.account = s.account := by
  unfold viewOtherUserFiles
  split
  · simp
  · split
    · simp
    · split <;> simp

/-! ## The two refreshes -/

/-- C6: `loadMyFiles` and `loadAccessList`. With an empty active identity no
query is issued and the state is unchanged. With a non-empty one exactly the
query `display(account)` (resp. `shareAccess()`) is issued with sender
`account`; if it answers `d` the slot `files` (resp. `accessList`) becomes `d`
and nothing else changes; if it fails the state is unchanged and the failure
is the result of the call. -/
theorem C6_refresh_replaces_or_keeps (L : Ledger σ) (w : σ) (s : AppState) :
    ((s.account = "" →
        (loadMyFiles L w s).state = s ∧ (loadMyFiles L w s).trace = [] ∧
        (loadMyFiles L w s).result = .ok ()) ∧
      (s.account ≠ "" → ∀ d, L.display w s.account s.account = .ok d →
        (loadMyFiles L w s).state = { s with files := d } ∧
        (loadMyFiles L w s).state.files = d ∧
        (loadMyFiles L w s).trace = [.readContract "display" [s.account] s.account] ∧
        (loadMyFiles L w s).result = .ok ()) ∧
      (s.account ≠ "" → ∀ e, L.display w s.account s.account = .error e →
        (loadMyFiles L w s).state = s ∧
        (loadMyFiles L w s).trace = [.readContract "display" [s.account] s.account] ∧
        (loadMyFiles L w s).result = .error e)) ∧
    ((s.account = "" →
        (loadAccessList L w s).state = s ∧ (loadAccessList L w s).trace = [] ∧
        (loadAccessList L w s).result = .ok ()) ∧
      (s.account ≠ "" → ∀ d, L.shareAccess w s.account = .ok d →
        (loadAccessList L w s).state = { s with accessList := d } ∧
        (loadAccessList L w s).state.accessList = d ∧
        (loadAccessList L w s).trace = [.readContract "shareAccess" [] s.account] ∧
        (loadAccessList L w s).result = .ok ()) ∧
      (s.account ≠ "" → ∀ e, L.shareAccess w s.account = .error e →
        (loadAccessList L w s).state = s ∧
        (loadAccessList L w s).trace = [.readContract "shareAccess" [] s.account] ∧
        (loadAccessList L w s).result = .error e)) := by
  refine ⟨⟨?_, ?_, ?_⟩, ⟨?_, ?_, ?_⟩⟩
  · intro h; simp [loadMyFiles, h]
  · intro h d hd; simp [loadMyFiles, h, hd]
  · intro h e he; simp [loadMyFiles, h, he]
  · intro h; simp [loadAccessList, h]
  · intro h d hd; simp [loadAccessList, h, hd]
  · intro h e he; simp [loadAccessList, h, he]

/-- Witness: in the initial state nothing
happens; with `0xA` active on `demoWorld` each slot takes the ledger answer;
with `0xA` active and the ledger out of reach each refresh keeps its slot and
fails with the transport error. -/
theorem C6_refresh_replaces_or_keeps_witness :
    ((loadMyFiles refLedger demoWorld AppState.initial).state = AppState.initial ∧
      (loadMyFiles refLedger demoWorld connectedA).state.files = ["https://host/a1"] ∧
      (loadMyFiles unreachableLedger () staleView).state = staleView ∧
      (loadMyFiles unreachableLedger () staleView).result = .error .unreachable) ∧
    ((loadAccessList refLedger demoWorld AppState.initial).state = AppState.initial ∧
      (loadAccessList refLedger demoWorld connectedA).state.accessList = [] ∧
      (loadAccessList unreachableLedger () staleView).state = staleView ∧
      (loadAccessList unreachableLedger () staleView).result = .error .unreachable) :=
  ⟨⟨((C6_refresh_replaces_or_keeps refLedger demoWorld AppState.initial).1.1 rfl).1,
      ((C6_refresh_replaces_or_keeps refLedger demoWorld connectedA).1.2.1
        (by decide) _ rfl).2.1,
      ((C6_refresh_replaces_or_keeps unreachableLedger () staleView).1.2.2
        (by decide) _ rfl).1,
      ((C6_refresh_replaces_or_keeps unreachableLedger () staleView).1.2.2
        (by decide) _ rfl).2.2⟩,
    ⟨((C6_refresh_replaces_or_keeps refLedger demoWorld AppState.initial).2.1 rfl).1,
      ((C6_refresh_replaces_or_keeps refLedger demoWorld connectedA).2.2.1
        (by decide) _ rfl).2.1,
      ((C6_refresh_replaces_or_keeps unreachableLedger () staleView).2.2.2
        (by decide) _ rfl).1,
      ((C6_refresh_replaces_or_keeps unreachableLedger () staleView).2.2.2
        (by decide) _ rfl).2.2⟩⟩

/-! ## In-flight queries and the run-to-completion handlers -/

/-- The viewer run to completion is its click followed by the arrival of its
response. -/
lemma run_view_eq (L : Ledger σ) (w : σ) (s : AppState) :
    (run L w ⟨s, []⟩ [.viewClicked, .settled 0]).app
      = (viewOtherUserFiles L w s).state := by
  unfold viewOtherUserFiles
  by_cases ha : s.account = ""
  · simp [run, step, ha]
  · by_cases hv : s.viewAddress = ""
    · simp [run, step, ha, hv]
    · cases h : L.display w s.account s.viewAddress <;>
        simp [run, step, ha, hv, resume, h]

/-- The file refresh run to completion is its click followed by the arrival of
its response. -/
lemma run_refresh_eq (L : Ledger σ) (w : σ) (s : AppState) :
    (run L w ⟨s, []⟩ [.refreshClicked, .settled 0]).app
      = (loadMyFiles L w s).state := by
  unfold loadMyFiles
  by_cases ha : s.account = ""
  · simp [run, step, ha]
  · cases h : L.display w s.account s.account <;>
      simp [run, step, ha, resume, h]

/-- An `accountsChanged` notification run to completion is the notification
followed by the arrival of the two responses. -/
lemma run_accountsChanged_eq (L : Ledger σ) (w : σ) (s : AppState)
    (accs : Option (List String)) :
    (run L w ⟨s, []⟩ [.accountsChanged accs, .settled 0, .settled 0]).app
      = (accountsChanged L w s accs).state := by
  unfold accountsChanged accountEffect loadMyFiles loadAccessList
  by_cases h1 : firstAccount accs = s.account
  · simp [run, step, onAccountsChanged, h1]
  · by_cases h2 : firstAccount accs = ""
    · simp [run, step, onAccountsChanged, h1, h2]
    · cases h3 : L.display w (firstAccount accs) (firstAccount accs) <;>
        cases h4 : L.shareAccess w (firstAccount accs) <;>
          simp [run, step, onAccountsChanged, h1, h2, resume, h3, h4]

/-! ## What `files` can hold across identity changes -/

/-- C7 (as stated, refuted), on `demoWorld` from the mounted component.
(1) `0xA` becomes active, then `0xB`; the refresh of `0xB` settles, then the
response to the refresh of `0xA`, still in flight, arrives: `files` holds the
listing of `0xA` while `account` is `0xB`, with nothing left in flight.
(2) `0xA` becomes active and its refreshes settle, then `0xB` becomes active
during an outage and both its refreshes fail: the same end state. -/
theorem C7_stale_listing_under_new_identity :
    run refLedger demoWorld Client.initial
        [.accountsChanged (some ["0xA"]), .accountsChanged (some ["0xB"]),
          .settled 2, .settled 2, .settled 0, .settled 0]
      = ⟨{ AppState.initial with
            account := "0xB", files := ["https://host/a1"],
            accessList := [] }, []⟩ ∧
    run outageForB demoWorld Client.initial
        [.accountsChanged (some ["0xA"]), .settled 0, .settled 0,
          .accountsChanged (some ["0xB"]), .settled 0, .settled 0]
      = ⟨{ AppState.initial with
            account := "0xB", files := ["https://host/a1"] }, []⟩ ∧
    refLedger.display demoWorld "0xA" "0xA" = .ok ["https://host/a1"] ∧
    refLedger.display demoWorld "0xB" "0xB" = .ok ["https://host/b1"] ∧
    outageForB.display demoWorld "0xB" "0xB" = .error .unreachable := by
  refine ⟨by decide, by decide, rfl, rfl, rfl⟩

/-- The identities made active by a list of events, split at an append. -/
lemma activated_append (es fs : List Event) :
    activated (es ++ fs) = activated es ++ activated fs := by
  induction es with
  | nil => rfl
  | cons e es ih => cases e <;> simp [activated, ih]

/-- The property `FilesInv` survives a growing list of identities. -/
lemma FilesInv.mono (L : Ledger σ) (w : σ) (seen more : List String) (c : Client)
    (h : FilesInv L w seen c) : FilesInv L w (seen ++ more) c := by
  obtain ⟨h1, h2, h3⟩ := h
  refine ⟨?_, ?_, ?_⟩
  · rcases h1 with h1 | h1
    · exact Or.inl h1
    · exact Or.inr (List.mem_append_left _ h1)
  · intro a ha
    exact ⟨(h2 a ha).1, List.mem_append_left _ (h2 a ha).2⟩
  · rcases h3 with h3 | ⟨X, hX, hne, hd⟩
    · exact Or.inl h3
    · exact Or.inr ⟨X, List.mem_append_left _ hX, hne, hd⟩

/-- Every event preserves `FilesInv`, the identity it makes active added. -/
lemma FilesInv.step (L : Ledger σ) (w : σ) (seen : List String) (c : Client)
    (e : Event) (h : FilesInv L w seen c) :
    FilesInv L w (seen ++ activated [e]) (step L w c e) := by
  cases e with
  | accountsChanged accs =>
    have hm := FilesInv.mono L w seen [firstAccount accs] c h
    obtain ⟨_, h2, h3⟩ := hm
    have hin : firstAccount accs ∈ seen ++ [firstAccount accs] := by simp
    simp only [activated, App.step, onAccountsChanged]
    split
    · exact ⟨Or.inr hin, h2, h3⟩
    · split
      · exact ⟨Or.inr hin, h2, h3⟩
      · rename_i hne
        refine ⟨Or.inr hin, ?_, h3⟩
        intro a ha
        rcases List.mem_append.mp ha with ha | ha
        · exact h2 a ha
        · simp at ha
          subst ha
          exact ⟨hne, hin⟩
  | refreshClicked =>
    have hm := FilesInv.mono L w seen [] c h
    obtain ⟨h1, h2, h3⟩ := hm
    simp only [activated, App.step]
    split
    · exact ⟨h1, h2, h3⟩
    · rename_i hne
      refine ⟨h1, ?_, h3⟩
      intro a ha
      rcases List.mem_append.mp ha with ha | ha
      · exact h2 a ha
      · simp at ha
        subst ha
        exact ⟨hne, h1.resolve_left hne⟩
  | refreshAccessListClicked =>
    have hm := FilesInv.mono L w seen [] c h
    obtain ⟨h1, h2, h3⟩ := hm
    simp only [activated, App.step]
    split
    · exact ⟨h1, h2, h3⟩
    · refine ⟨h1, ?_, h3⟩
      intro a ha
      rcases List.mem_append.mp ha with ha | ha
      · exact h2 a ha
      · simp at ha
  | viewAddressTyped v =>
    exact FilesInv.mono L w seen [] c h
  | viewClicked =>
    have hm := FilesInv.mono L w seen [] c h
    obtain ⟨h1, h2, h3⟩ := hm
    simp only [activated, App.step]
    split
    · exact ⟨h1, h2, h3⟩
    · split
      · exact ⟨h1, h2, h3⟩
      · refine ⟨h1, ?_, h3⟩
        intro a ha
        rcases List.mem_append.mp ha with ha | ha
        · exact h2 a ha
        · simp at ha
  | settled i =>
    have hm := FilesInv.mono L w seen [] c h
    obtain ⟨h1, h2, h3⟩ := hm
    simp only [activated, App.step]
    split
    · exact ⟨h1, h2, h3⟩
    · rename_i p hp
      have hmem : p ∈ c.pending := List.getElem?_mem hp
      have h2e : ∀ a, Pending.loadMyFiles a ∈ c.pending.eraseIdx i →
          a ≠ "" ∧ a ∈ seen ++ [] := fun a ha => h2 a (List.mem_of_mem_eraseIdx ha)
      cases p with
      | loadMyFiles a =>
        simp only [resume]
        split
        · rename_i d hd
          exact ⟨h1, h2e, Or.inr ⟨a, (h2 a hmem).2, (h2 a hmem).1, hd⟩⟩
        · exact ⟨h1, h2e, h3⟩
      | loadAccessList a =>
        simp only [resume]
        split
        · exact ⟨h1, h2e, h3⟩
        · exact ⟨h1, h2e, h3⟩
      | viewOtherUserFiles a v =>
        simp only [resume]
        split
        · exact ⟨h1, h2e, h3⟩
        · exact ⟨h1, h2e, h3⟩

/-- Every run preserves `FilesInv`, the identities it makes active added. -/
lemma FilesInv.run (L : Ledger σ) (w : σ) (events : List Event) :
    ∀ (seen : List String) (c : Client), FilesInv L w seen c →
      FilesInv L w (seen ++ activated events) (run L w c events) := by
  induction events with
  | nil =>
    intro seen c h
    simpa [App.run, activated] using h
  | cons e es ih =>
    intro seen c h
    have h1 := FilesInv.step L w seen c e h
    have h2 := ih _ _ h1
    have he : activated (e :: es) = activated [e] ++ activated es :=
      activated_append [e] es
    rw [he, ← List.append_assoc]
    exact h2

/-- C7 (amended): in every state reachable from the mounted component through
wallet notifications, clicks and responses arriving in any order (no
transaction being sent meanwhile), `files` is either empty or the answer of the
ledger to `display(X)` asked by `X`, for a non-empty identity `X` that some
`accountsChanged` notification of the run made active; `X` need not be the
identity active now. -/
theorem C7_files_is_listing_of_some_activated_identity (L : Ledger σ) (w : σ)
    (events : List Event) :
    (run L w Client.initial events).app.files = [] ∨
    ∃ X ∈ activated events, X ≠ "" ∧
      L.display w X X = .ok (run L w Client.initial events).app.files := by
  have h0 : FilesInv L w [] Client.initial :=
    ⟨Or.inl rfl, by intro a ha; simp [Client.initial] at ha, Or.inl rfl⟩
  have h := FilesInv.run L w events [] Client.initial h0
  simpa using h.2.2

/-! ## Two views in flight -/

/-- C8 (as stated, refuted): with `0xA` active on `demoWorld`, a view of `0xB`
is issued, then a view of `0xE` while the first is in flight. The response for
`0xE` arrives, then the one for `0xB`: with both settled `otherFiles` holds the
listing of `0xB`, not that of `0xE`. In the other order the listing of `0xB` is
written into `otherFiles` after the request for `0xE` was issued. -/
theorem C8_late_response_overwrites :
    (run refLedger demoWorld clientA
        [.viewAddressTyped "0xB", .viewClicked, .viewAddressTyped "0xE", .viewClicked,
          .settled 1, .settled 0])
      = ⟨{ connectedA with viewAddress := "0xE", otherFiles := ["https://host/b1"] },
          []⟩ ∧
    (run refLedger demoWorld clientA
        [.viewAddressTyped "0xB", .viewClicked, .viewAddressTyped "0xE", .viewClicked,
          .settled 0])
      = ⟨{ connectedA with viewAddress := "0xE", otherFiles := ["https://host/b1"] },
          [.viewOtherUserFiles "0xA" "0xE"]⟩ ∧
    refLedger.display demoWorld "0xA" "0xB" = .ok ["https://host/b1"] ∧
    refLedger.display demoWorld "0xA" "0xE" = .ok ["https://host/e1"] := by
  refine ⟨by decide, by decide, rfl, rfl⟩

/-- The state after two views are issued in a row, for `X` then for `Y`. -/
lemma run_two_views (L : Ledger σ) (w : σ) (c : Client) (X Y : String)
    (hacc : c.app.account ≠ "") (hX : X ≠ "") (hY : Y ≠ "") :
    run L w c [.viewAddressTyped X, .viewClicked, .viewAddressTyped Y, .viewClicked]
      = ⟨{ c.app with viewAddress := Y },
          c.pending ++ [.viewOtherUserFiles c.app.account X,
            .viewOtherUserFiles c.app.account Y]⟩ := by
  simp [run, step, setViewAddress, hacc, hX, hY]

/-- The response to the request at the end of the queue arrives. -/
lemma step_settled_last (L : Ledger σ) (w : σ) (s : AppState) (ps : List Pending)
    (p : Pending) :
    step L w ⟨s, ps ++ [p]⟩ (.settled ps.length) = ⟨resume L w s p, ps⟩ := by
  have h1 : (ps ++ [p])[ps.length]? = some p := List.getElem?_concat_length ps p
  have h2 : (ps ++ [p]).eraseIdx ps.length = ps := by
    rw [List.eraseIdx_append_of_length_le (le_refl _)]
    simp
  simp only [step, h1, h2]

/-- The response to the request before the last of the queue arrives. -/
lemma step_settled_before_last (L : Ledger σ) (w : σ) (s : AppState)
    (ps : List Pending) (p q : Pending) :
    step L w ⟨s, ps ++ [p, q]⟩ (.settled ps.length) = ⟨resume L w s p, ps ++ [q]⟩ := by
  have h1 : (ps ++ [p, q])[ps.length]? = some p := by
    rw [List.getElem?_append_right (le_refl _)]
    simp
  have h2 : (ps ++ [p, q]).eraseIdx ps.length = ps ++ [q] := by
    rw [List.eraseIdx_append_of_length_le (le_refl _)]
    simp
  simp only [step, h1, h2]

/-- The response to the last request of the queue arrives before the one to
the request issued just before it. -/
lemma step_settled_last_of_two (L : Ledger σ) (w : σ) (s : AppState)
    (ps : List Pending) (p q : Pending) :
    step L w ⟨s, ps ++ [p, q]⟩ (.settled (ps.length + 1))
      = ⟨resume L w s q, ps ++ [p]⟩ := by
  have h := step_settled_last L w s (ps ++ [p]) q
  simpa using h

/-- C8 (amended): when `viewOtherUserFiles` is issued for `X` and then for `Y`
while the query for `X` is in flight, and both queries succeed, the response
that arrives last decides `otherFiles`: it holds the result for `Y` when the
response for `X` arrived first, and the result for `X` when the response for
`Y` arrived first. A result for `X` arriving after the request for `Y` was
issued is written into `otherFiles` in both orders. -/
theorem C8_last_response_wins (L : Ledger σ) (w : σ) (c : Client) (X Y : String)
    (dX dY : List String)
    (hacc : c.app.account ≠ "") (hX : X ≠ "") (hY : Y ≠ "")
    (hdX : L.display w c.app.account X = .ok dX)
    (hdY : L.display w c.app.account Y = .ok dY) :
    (run L w c
        [.viewAddressTyped X, .viewClicked, .viewAddressTyped Y, .viewClicked,
          .settled c.pending.length]).app.otherFiles = dX ∧
    (run L w c
        [.viewAddressTyped X, .viewClicked, .viewAddressTyped Y, .viewClicked,
          .settled c.pending.length, .settled c.pending.length]).app.otherFiles = dY ∧
    (run L w c
        [.viewAddressTyped X, .viewClicked, .viewAddressTyped Y, .viewClicked,
          .settled (c.pending.length + 1), .settled c.pending.length]).app.otherFiles
      = dX := by
  have h4 := run_two_views L w c X Y hacc hX hY
  have split1 : ∀ tail : List Event,
      run L w c
        ([.viewAddressTyped X, .viewClicked, .viewAddressTyped Y, .viewClicked] ++ tail)
      = run L w ⟨{ c.app with viewAddress := Y },
          c.pending ++ [.viewOtherUserFiles c.app.account X,
            .viewOtherUserFiles c.app.account Y]⟩ tail := by
    intro tail
    rw [← h4]
    simp [run, List.foldl_append]
  refine ⟨?_, ?_, ?_⟩
  · have h := split1 [.settled c.pending.length]
    simp only [List.cons_append, List.nil_append] at h
    rw [h]
    simp only [run, List.foldl_cons, List.foldl_nil, step_settled_before_last]
    simp [resume, hdX]
  · have h := split1 [.settled c.pending.length, .settled c.pending.length]
    simp only [List.cons_append, List.nil_append] at h
    rw [h]
    simp only [run, List.foldl_cons, List.foldl_nil, step_settled_before_last,
      step_settled_last]
    simp [resume, hdX, hdY]
  · have h := split1 [.settled (c.pending.length + 1), .settled c.pending.length]
    simp only [List.cons_append, List.nil_append] at h
    rw [h]
    simp only [run, List.foldl_cons, List.foldl_nil, step_settled_last_of_two,
      step_settled_last]
    simp [resume, hdX, hdY]

/-- Witness: `0xA` views `0xB`, then `0xE`, on
`demoWorld`. -/
theorem C8_last_response_wins_witness :
    (run refLedger demoWorld clientA
        [.viewAddressTyped "0xB", .viewClicked, .viewAddressTyped "0xE", .viewClicked,
          .settled 0]).app.otherFiles = ["https://host/b1"] ∧
    (run refLedger demoWorld clientA
        [.viewAddressTyped "0xB", .viewClicked, .viewAddressTyped "0xE", .viewClicked,
          .settled 0, .settled 0]).app.otherFiles = ["https://host/e1"] ∧
    (run refLedger demoWorld clientA
        [.viewAddressTyped "0xB", .viewClicked, .viewAddressTyped "0xE", .viewClicked,
          .settled 1, .settled 0]).app.otherFiles = ["https://host/b1"] :=
  C8_last_response_wins refLedger demoWorld clientA "0xB" "0xE"
    ["https://host/b1"] ["https://host/e1"] (by decide) (by decide) (by decide) rfl rfl

/-! ## What the viewer keeps -/

/-- C9 (as stated, refuted): with `0xA` active and `0xD` typed as target, the
never-queried state, the state after a successful view answering the empty
sequence (`demoWorld`) and the state after a denied view (`revokedWorld`) are
one and the same state. -/
theorem C9_three_view_states_coincide :
    refLedger.display demoWorld unqueriedD.account unqueriedD.viewAddress = .ok [] ∧
    refLedger.display revokedWorld unqueriedD.account unqueriedD.viewAddress
      = .error .accessDenied ∧
    (viewOtherUserFiles refLedger demoWorld unqueriedD).state = unqueriedD ∧
    (viewOtherUserFiles refLedger revokedWorld unqueriedD).state = unqueriedD ∧
    (viewOtherUserFiles refLedger demoWorld unqueriedD).state
      = (viewOtherUserFiles refLedger revokedWorld unqueriedD).state :=
  ⟨rfl, rfl, by decide, by decide, by decide⟩

/-- C9 (amended): the state kept by the client does not tell the three
situations apart. From a never-queried state (`otherFiles` empty, identity and
target set), a successful `viewOtherUserFiles` answering the empty sequence and
a failed one both end in that same state; the failed call differs only in what
it does while it runs: it logs the error and raises the alert, the successful
one raises no alert. -/
theorem C9_only_the_alert_tells_denial (L : Ledger σ) (wOk wDenied : σ)
    (s : AppState) (e : LedgerError)
    (hacc : s.account ≠ "") (hview : s.viewAddress ≠ "") (hnever : s.otherFiles = [])
    (hok : L.display wOk s.account s.viewAddress = .ok [])
    (hdenied : L.display wDenied s.account s.viewAddress = .error e) :
    (viewOtherUserFiles L wOk s).state = s ∧
    (viewOtherUserFiles L wDenied s).state = s ∧
    (∀ msg, Effect.alert msg ∉ (viewOtherUserFiles L wOk s).trace) ∧
    Effect.alert "❌ No access / No files" ∈ (viewOtherUserFiles L wDenied s).trace := by
  refine ⟨?_, ?_, ?_, ?_⟩
  · simp only [viewOtherUserFiles, hacc, hview, hok, if_false]
    rw [← hnever]
  · simp [viewOtherUserFiles, hacc, hview, hdenied]
  · simp [viewOtherUserFiles, hacc, hview, hok]
  · simp [viewOtherUserFiles, hacc, hview, hdenied]

/-- Witness at `unqueriedD`, granted on
`demoWorld` and denied on `revokedWorld`. -/
theorem C9_only_the_alert_tells_denial_witness :
    (viewOtherUserFiles refLedger demoWorld unqueriedD).state = unqueriedD ∧
    (viewOtherUserFiles refLedger revokedWorld unqueriedD).state = unqueriedD ∧
    (∀ msg, Effect.alert msg
      ∉ (viewOtherUserFiles refLedger demoWorld unqueriedD).trace) ∧
    Effect.alert "❌ No access / No files"
      ∈ (viewOtherUserFiles refLedger revokedWorld unqueriedD).trace :=
  C9_only_the_alert_tells_denial refLedger demoWorld revokedWorld unqueriedD
    .accessDenied (by decide) (by decide) rfl rfl rfl

/-! ## Grants and revocations on the reference ledger -/

/-- After `setGrant` the list holds the entry of the user with the flag set. -/
lemma setGrant_mem (l : List Access) (g : String) (b : Bool) :
    (⟨g, b⟩ : Access) ∈ setGrant l g b := by
  unfold setGrant
  split
  · rename_i h
    obtain ⟨a, ha, hu⟩ := List.any_eq_true.mp h
    have hu2 : a.user = g := by simpa using hu
    refine List.mem_map.mpr ⟨a, ha, ?_⟩
    simp [hu2]
  · simp

/-- After `setGrant` every entry of the user carries the flag set. -/
lemma setGrant_flag (l : List Access) (g : String) (b : Bool) (a : Access)
    (ha : a ∈ setGrant l g b) (hu : a.user = g) : a.access = b := by
  unfold setGrant at ha
  split at ha
  · obtain ⟨x, _, hx⟩ := List.mem_map.mp ha
    by_cases hxu : x.user = g
    · simp [hxu] at hx
      rw [← hx]
    · simp [hxu] at hx
      rw [hx] at hxu
      exact absurd hu hxu
  · rename_i h
    rcases List.mem_append.mp ha with h1 | h1
    · exfalso
      apply h
      exact List.any_eq_true.mpr ⟨a, h1, by simpa using hu⟩
    · simp at h1
      rw [h1]

/-- C10 (as stated, refuted): on the reference ledger from `demoWorld`, `0xA`
allows `0xB` and then disallows `0xB`; every transaction is accepted and nobody
else writes. The ledger answers the refresh of the first call before the second
transaction, and that response reaches the component after the response to the
refresh of the second call. With every refresh settled and nothing in flight,
`accessList` shows `0xB` as allowed although the last call was `disallow` and
the ledger holds the grant as withdrawn. -/
theorem C10_late_refresh_shows_old_grant :
    (grantRun refLedger grantsA
        (callEvents "0xB" .allow 0 ++ [.answered 0] ++ callEvents "0xB" .disallow 1
          ++ [.answered 1, .settled 1, .settled 0])).app.accessList
      = [⟨"0xB", true⟩] ∧
    (grantRun refLedger grantsA
        (callEvents "0xB" .allow 0 ++ [.answered 0] ++ callEvents "0xB" .disallow 1
          ++ [.answered 1, .settled 1, .settled 0])).inFlight.length = 0 ∧
    (grantRun refLedger grantsA
        (callEvents "0xB" .allow 0 ++ [.answered 0] ++ callEvents "0xB" .disallow 1
          ++ [.answered 1, .settled 1, .settled 0])).world.grants "0xA"
      = [⟨"0xB", false⟩] ∧
    (grantRun refLedger grantsA
        (callEvents "0xB" .allow 0 ++ [.answered 0] ++ callEvents "0xB" .disallow 1
          ++ [.answered 1, .settled 1])).app.accessList
      = [⟨"0xB", false⟩] := by
  refine ⟨by decide, by decide, by decide, by decide⟩

/-- A run over two event lists in a row. -/
lemma grantRun_append (L : Ledger σ) (c : GrantClient σ) (es fs : List GrantEvent) :
    grantRun L c (es ++ fs) = grantRun L (grantRun L c es) fs := by
  simp [grantRun, List.foldl_append]

/-- The handler `setAccess` run to completion is its click followed by the
ledger processing the transaction, its response, the ledger answering the
refresh and its response, nothing else coming in between. -/
lemma grantRun_setAccess_eq (L : Ledger σ) (w : σ) (s : AppState) (mode : Mode) :
    (grantRun L ⟨s, w, []⟩
        [.setAccessClicked mode, .answered 0, .settled 0, .answered 0, .settled 0]).app
      = (setAccess L w s mode).state ∧
    (grantRun L ⟨s, w, []⟩
        [.setAccessClicked mode, .answered 0, .settled 0, .answered 0, .settled 0]).world
      = (setAccess L w s mode).world := by
  unfold setAccess loadAccessList
  by_cases ha : s.account = ""
  · simp [grantRun, grantStep, ha]
  · by_cases hs : s.shareTo = ""
    · simp [grantRun, grantStep, ha, hs]
    · cases h1 : L.setAccess mode w s.account s.shareTo with
      | error e => simp [grantRun, grantStep, ha, hs, process, h1, deliver]
      | ok w1 =>
        cases h2 : L.shareAccess w1 s.account <;>
          simp [grantRun, grantStep, ha, hs, process, h1, deliver, h2]

/-- One call on the reference ledger, issued behind the calls in flight: the
grant of the sender for the grantee is set to the flag of the mode, the share
input is cleared and the refresh of the call is in flight, not yet answered. -/
lemma grantRun_callEvents (c : GrantClient RefWorld) (g : String) (mode : Mode)
    (hacc : c.app.account ≠ "") (hg : g ≠ "") :
    (grantRun refLedger c (callEvents g mode c.inFlight.length)).app
      = { c.app with shareTo := "" } ∧
    (grantRun refLedger c (callEvents g mode c.inFlight.length)).world.grants
        c.app.account
      = setGrant (c.world.grants c.app.account) g (decide (mode = .allow)) ∧
    (grantRun refLedger c (callEvents g mode c.inFlight.length)).inFlight
      = c.inFlight ++ [.loadAccessList c.app.account] := by
  have h1 : ∀ f : Flight, (c.inFlight ++ [f])[c.inFlight.length]? = some f :=
    fun f => List.getElem?_concat_length c.inFlight f
  have h2 : ∀ f f2 : Flight, (c.inFlight ++ [f]).set c.inFlight.length f2
      = c.inFlight ++ [f2] := by
    intro f f2
    rw [List.set_append_right _ _ (le_refl _)]
    simp
  have h3 : ∀ f : Flight, (c.inFlight ++ [f]).eraseIdx c.inFlight.length
      = c.inFlight := by
    intro f
    rw [List.eraseIdx_append_of_length_le (le_refl _)]
    simp
  cases mode <;>
    simp [grantRun, callEvents, grantStep, setShareTo, hacc, hg, h1, h2, h3, process,
      Ledger.setAccess, refLedger, deliver]

/-- While no transaction waits to be processed, the ledger answering queries
and responses arriving leave the ledger state and the active identity as they
are, and no transaction comes to wait. -/
lemma grantStep_response (L : Ledger σ) (c : GrantClient σ) (e : GrantEvent)
    (he : e.isResponse = true)
    (hopen : ∀ f ∈ c.inFlight, f.isOpenTransaction = false) :
    (grantStep L c e).world = c.world ∧
    (grantStep L c e).app.account = c.app.account ∧
    ∀ f ∈ (grantStep L c e).inFlight, f.isOpenTransaction = false := by
  cases e with
  | shareToTyped v => simp [GrantEvent.isResponse] at he
  | setAccessClicked mode => simp [GrantEvent.isResponse] at he
  | refreshAccessListClicked => simp [GrantEvent.isResponse] at he
  | answered i =>
    simp only [grantStep]
    split
    · exact ⟨rfl, rfl, hopen⟩
    · rename_i f hf
      have hfo := hopen f (List.getElem?_mem hf)
      cases f with
      | setAccess m a g => simp [Flight.isOpenTransaction] at hfo
      | setAccessAnswered o a =>
        refine ⟨rfl, rfl, ?_⟩
        intro f2 hf2
        rcases List.mem_or_eq_of_mem_set hf2 with h | h
        · exact hopen f2 h
        · rw [h]; rfl
      | loadAccessList a =>
        refine ⟨rfl, rfl, ?_⟩
        intro f2 hf2
        rcases List.mem_or_eq_of_mem_set hf2 with h | h
        · exact hopen f2 h
        · rw [h]; rfl
      | loadAccessListAnswered r =>
        refine ⟨rfl, rfl, ?_⟩
        intro f2 hf2
        rcases List.mem_or_eq_of_mem_set hf2 with h | h
        · exact hopen f2 h
        · rw [h]; rfl
  | settled i =>
    simp only [grantStep]
    split
    · exact ⟨rfl, rfl, hopen⟩
    · rename_i f hf
      have herase : ∀ f2 ∈ c.inFlight.eraseIdx i, f2.isOpenTransaction = false :=
        fun f2 h => hopen f2 (List.mem_of_mem_eraseIdx h)
      cases f with
      | setAccess m a g => exact ⟨rfl, rfl, hopen⟩
      | loadAccessList a => exact ⟨rfl, rfl, hopen⟩
      | setAccessAnswered o a =>
        cases o with
        | error e =>
          refine ⟨rfl, rfl, ?_⟩
          intro f2 hf2
          exact herase f2 (by simpa [deliver] using hf2)
        | ok u =>
          refine ⟨rfl, rfl, ?_⟩
          intro f2 hf2
          rcases List.mem_append.mp hf2 with h | h
          · exact herase f2 h
          · by_cases ha : a = ""
            · simp [ha] at h
            · simp [ha] at h
              rw [h]; rfl
      | loadAccessListAnswered r =>
        cases r with
        | error e =>
          refine ⟨rfl, rfl, ?_⟩
          intro f2 hf2
          exact herase f2 (by simpa [deliver] using hf2)
        | ok d =>
          refine ⟨rfl, rfl, ?_⟩
          intro f2 hf2
          exact herase f2 (by simpa [deliver] using hf2)

/-- A run of answers and arrivals, no transaction waiting to be processed,
leaves the ledger state and the active identity as they are. -/
lemma grantRun_responses (L : Ledger σ) (events : List GrantEvent) :
    ∀ c : GrantClient σ, (∀ e ∈ events, e.isResponse = true) →
      (∀ f ∈ c.inFlight, f.isOpenTransaction = false) →
      (grantRun L c events).world = c.world ∧
      (grantRun L c events).app.account = c.app.account := by
  induction events with
  | nil => intro c _ _; exact ⟨rfl, rfl⟩
  | cons e es ih =>
    intro c he hopen
    have h1 := grantStep_response L c e (he e (List.mem_cons_self _ _)) hopen
    have h2 := ih (grantStep L c e)
      (fun e2 h => he e2 (List.mem_cons_of_mem _ h)) h1.2.2
    have hrun : grantRun L c (e :: es) = grantRun L (grantStep L c e) es := rfl
    rw [hrun, h2.1, h2.2, h1.1, h1.2.1]
    exact ⟨rfl, rfl⟩

/-- A refresh in flight is answered by the reference ledger and its response
arrives at once: `accessList` becomes the grants the ledger holds for the
identity the refresh captured. -/
lemma grantRun_refresh (c : GrantClient RefWorld) (k : Nat) (a : String)
    (hk : c.inFlight[k]? = some (.loadAccessList a)) :
    (grantRun refLedger c [.answered k, .settled k]).app.accessList
      = c.world.grants a := by
  have hlt : k < c.inFlight.length := by
    by_contra h
    rw [List.getElem?_eq_none (not_lt.mp h)] at hk
    exact absurd hk (by simp)
  have hset : ∀ f : Flight, (c.inFlight.set k f)[k]? = some f :=
    fun f => List.getElem?_set_self hlt
  simp [grantRun, grantStep, hk, process, refLedger, hset, deliver]

/-- C10 (amended): on the reference ledger (every transaction accepted, nobody
else writing), let the component be in any state left by earlier `setAccess`
calls whose transactions the ledger has all processed, with any responses
still in flight. A further `setAccess` call with a non-empty grantee `g` under
the non-empty active identity sends exactly one transaction, to the entry point
named by its mode, with argument `g` and sender `account`. Once it is accepted,
whatever answers and responses of other calls come in between and in whatever
order, when a `shareAccess` query of the active identity that was still
unanswered (such as the refresh of this last call) is answered and its response
arrives, `accessList` holds an entry for `g`, and every entry for `g` has its
flag true exactly when the mode of the last call was `allow`. -/
theorem C10_refresh_answered_after_last_call (c : GrantClient RefWorld)
    (g : String) (mode : Mode) (others : List GrantEvent) (k : Nat)
    (hacc : c.app.account ≠ "") (hg : g ≠ "")
    (hopen : ∀ f ∈ c.inFlight, f.isOpenTransaction = false)
    (hothers : ∀ e ∈ others, e.isResponse = true)
    (hk : (grantRun refLedger c
        (callEvents g mode c.inFlight.length ++ others)).inFlight[k]?
      = some (.loadAccessList c.app.account)) :
    (grantRun refLedger c [.shareToTyped g, .setAccessClicked mode]).inFlight
      = c.inFlight ++ [.setAccess mode c.app.account g] ∧
    (⟨g, decide (mode = .allow)⟩ : Access)
      ∈ (grantRun refLedger c
          (callEvents g mode c.inFlight.length ++ others
            ++ [.answered k, .settled k])).app.accessList ∧
    (∀ a ∈ (grantRun refLedger c
          (callEvents g mode c.inFlight.length ++ others
            ++ [.answered k, .settled k])).app.accessList,
      a.user = g → (a.access = true ↔ mode = .allow)) := by
  have hcall := grantRun_callEvents c g mode hacc hg
  have hopen1 : ∀ f ∈ (grantRun refLedger c
      (callEvents g mode c.inFlight.length)).inFlight, f.isOpenTransaction = false := by
    intro f hf
    rw [hcall.2.2] at hf
    rcases List.mem_append.mp hf with h | h
    · exact hopen f h
    · simp at h
      rw [h]; rfl
  have hquiet := grantRun_responses refLedger others
    (grantRun refLedger c (callEvents g mode c.inFlight.length)) hothers hopen1
  have hlist : (grantRun refLedger c
      (callEvents g mode c.inFlight.length ++ others
        ++ [.answered k, .settled k])).app.accessList
      = setGrant (c.world.grants c.app.account) g (decide (mode = .allow)) := by
    rw [grantRun_append, grantRun_refresh _ k c.app.account hk, grantRun_append,
      hquiet.1, hcall.2.1]
  refine ⟨?_, ?_, ?_⟩
  · simp [grantRun, grantStep, setShareTo, hacc, hg]
  · rw [hlist]; exact setGrant_mem _ _ _
  · intro a ha hu
    rw [hlist] at ha
    rw [setGrant_flag _ _ _ a ha hu]
    simp

/-- Witness: `0xA` has allowed `0xB` and the refresh of that call is still in
flight, unanswered. `0xA` then disallows `0xB`; the first refresh is answered
and arrives, then the refresh of the last call: `accessList` shows `0xB` as not
allowed. -/
theorem C10_refresh_answered_after_last_call_witness :
    (grantRun refLedger (grantRun refLedger grantsA (callEvents "0xB" .allow 0))
        [.shareToTyped "0xB", .setAccessClicked .disallow]).inFlight
      = (grantRun refLedger grantsA (callEvents "0xB" .allow 0)).inFlight
          ++ [.setAccess .disallow "0xA" "0xB"] ∧
    (⟨"0xB", false⟩ : Access)
      ∈ (grantRun refLedger (grantRun refLedger grantsA (callEvents "0xB" .allow 0))
          (callEvents "0xB" .disallow 1 ++ [.answered 0, .settled 0]
            ++ [.answered 0, .settled 0])).app.accessList ∧
    (∀ a ∈ (grantRun refLedger (grantRun refLedger grantsA (callEvents "0xB" .allow 0))
          (callEvents "0xB" .disallow 1 ++ [.answered 0, .settled 0]
            ++ [.answered 0, .settled 0])).app.accessList,
      a.user = "0xB" → (a.access = true ↔ Mode.disallow = Mode.allow)) :=
  C10_refresh_answered_after_last_call
    (grantRun refLedger grantsA (callEvents "0xB" .allow 0)) "0xB" .disallow
    [.answered 0, .settled 0] 0 (by decide) (by decide) (by decide) (by decide) rfl

end App
